import Mathlib

/-!
Verification development for the `mongoose-url-query` repository.

The repository parses URL query parameters into filter descriptors
(`parseFilter`, `parseFilters`, `getFiltersFromUrl` in `src/filter.ts`),
compiles descriptors into MongoDB aggregation stages (`buildMatch`,
`buildPipeline`, `buildPipelineWithPercent`), and wraps pagination and
point lookups around aggregation calls (`fetchList`, `fetchUnifiedList`,
`fetchItem` in `src/fetch.ts`).

Modelling conventions:
* JavaScript strings are `List Char` (`Str` below); `String.prototype.split`
  with a limit argument, `includes`, and template concatenation are given
  their exact JS meanings.
* JavaScript numbers are modelled exactly over `ℚ`, with `Option ℚ` where
  `none` encodes `NaN` (`Number(...)` and `parseFloat(...)` return `NaN`
  on unparseable input; `Math.min`/`Math.max` propagate `NaN`).  The model
  covers plain decimal numerals; exotic numeral forms (hex, exponents,
  surrounding whitespace) are out of scope of the claims under check.
* `Date` normalisation (`startOfDay`/`endOfDay` in the source) is kept
  symbolic: the compiled stage records the operation and the raw string it
  was applied to (`MVal.dayStart` / `MVal.dayEnd`).  No claim inspects the
  calendar arithmetic, only which stage shapes are produced.
* The external driver check `ObjectId.isValid` is modelled on its canonical
  string form: a 24-hexadecimal-character string (`is24Hex`).
* The aggregation engine is an oracle: a function from a stage list to a
  result (a document list, or a count for the `$count` round-trips).
-/

namespace MongooseUrlQuery

/-- JavaScript strings are modelled as lists of characters. -/
abbrev Str := List Char

/-- URL search parameters: an ordered multiset of key/value pairs.
`URLSearchParams.get` returns the first value, `getAll` every value. -/
abbrev Params := List (Str × Str)

/-- The `searchParams.get(name)`: first value bound to `name`, or null. -/
def getParam (ps : Params) (name : Str) : Option Str :=
  (ps.find? (fun p => decide (p.1 = name))).map (fun p => p.2)

/-- The `searchParams.getAll(name)`: every value bound to `name`, in order. -/
def getAllParams (ps : Params) (name : Str) : List Str :=
  (ps.filter (fun p => decide (p.1 = name))).map (fun p => p.2)

/-- The `String.prototype.split(sep)` (single-character separator, no limit).
Always returns at least one token. -/
def splitOn (c : Char) : Str → List Str
  | [] => [[]]
  | x :: xs =>
    if x = c then [] :: splitOn c xs
    else
      match splitOn c xs with
      | [] => [[x]]
      | h :: t => (x :: h) :: t

/-- The `String.prototype.split(sep, limit)`: JS truncates the token list to
the first `limit` tokens (it does not keep a remainder). -/
def jsSplitLimit (c : Char) (limit : ℕ) (s : Str) : List Str :=
  (splitOn c s).take limit

/-- Does `pat` occur at the start of `s`? -/
def strStarts : Str → Str → Bool
  | [], _ => true
  | _ :: _, [] => false
  | a :: as, b :: bs => if a = b then strStarts as bs else false

/-- The `String.prototype.includes(pat)`: contiguous substring test.  The empty
pattern is contained in every string. -/
def isSubstr (pat : Str) : Str → Bool
  | [] => strStarts pat []
  | x :: xs => strStarts pat (x :: xs) || isSubstr pat xs

/-- Numeric value of a digit list (most significant first). -/
def digitsVal (ds : Str) : ℕ :=
  ds.foldl (fun a c => a * 10 + (c.toNat - 48)) 0

/-- The `parseFloat` on a sign-free string: longest valid decimal numeral
whose digits start the string; `none` is `NaN`. -/
def parseUnsignedFloat (s : Str) : Option ℚ :=
  let intPart := s.takeWhile Char.isDigit
  let rest := s.drop intPart.length
  match rest with
  | '.' :: r2 =>
    let fracPart := r2.takeWhile Char.isDigit
    if intPart = [] ∧ fracPart = [] then none
    else some ((digitsVal intPart : ℚ) + (digitsVal fracPart : ℚ) / 10 ^ fracPart.length)
  | _ => if intPart = [] then none else some (digitsVal intPart : ℚ)

/-- JavaScript `parseFloat`: optional sign, then a decimal numeral taken
from the front of the string; `none` is `NaN`. -/
def jsParseFloat (s : Str) : Option ℚ :=
  match s with
  | '-' :: r => (parseUnsignedFloat r).map (fun q => -q)
  | '+' :: r => parseUnsignedFloat r
  | _ => parseUnsignedFloat s

/-- Sign-free whole-string decimal numeral, for `Number(...)`. -/
def parseFullUnsigned (s : Str) : Option ℚ :=
  let intPart := s.takeWhile Char.isDigit
  let rest := s.drop intPart.length
  match rest with
  | [] => if intPart = [] then none else some (digitsVal intPart : ℚ)
  | '.' :: r2 =>
    if r2.all Char.isDigit then
      if intPart = [] ∧ r2 = [] then none
      else some ((digitsVal intPart : ℚ) + (digitsVal r2 : ℚ) / 10 ^ r2.length)
    else none
  | _ => none

/-- JavaScript `Number(...)` on a string: the empty string converts to `0`,
otherwise the entire string must be a signed decimal numeral; `none` is
`NaN`. -/
def jsNumber (s : Str) : Option ℚ :=
  if s = [] then some 0 else
  match s with
  | '-' :: r => (parseFullUnsigned r).map (fun q => -q)
  | '+' :: r => parseFullUnsigned r
  | _ => parseFullUnsigned s

/-- The `Math.min` with `NaN` propagation. -/
def jsMin (a b : Option ℚ) : Option ℚ :=
  match a, b with
  | some x, some y => some (min x y)
  | _, _ => none

/-- The `Math.max` with `NaN` propagation. -/
def jsMax (a b : Option ℚ) : Option ℚ :=
  match a, b with
  | some x, some y => some (max x y)
  | _, _ => none

/-- JS truthiness of an optional string: `undefined`/`null` and the empty
string are falsy. -/
def isTruthyStr : Option Str → Bool
  | some s => !s.isEmpty
  | none => false

/-- The `p3 || p2` on optional strings: the left operand wins unless it is
`undefined` or empty. -/
def jsOrStrOpt (a b : Option Str) : Option Str :=
  match a with
  | some s => if s.isEmpty then b else some s
  | none => b

-- String literals used by the source (`src/filter.ts`, `src/fetch.ts`).

def stringS : Str := "string".toList
def dateS : Str := "date".toList
def amountS : Str := "amount".toList
def arrayS : Str := "array".toList
def eqS : Str := "eq".toList
def neS : Str := "ne".toList
def hasS : Str := "has".toList
def nhS : Str := "nh".toList
def anyS : Str := "any".toList
def noneS : Str := "none".toList
def rangeS : Str := "range".toList
def ltS : Str := "lt".toList
def gtS : Str := "gt".toList
def beforeS : Str := "before".toList
def afterS : Str := "after".toList
def idS : Str := "id".toList
def underscoreIdS : Str := "_id".toList
def filterKeyS : Str := "filter".toList
def pageKeyS : Str := "page".toList
def limitKeyS : Str := "limit".toList
def totalS : Str := "total".toList
def shopDomainS : Str := "shopDomain".toList
def objectObjectS : Str := "[object Object]".toList

/-- The `FORCE_STRING_FIELDS` from `src/filter.ts`. -/
def FORCE_STRING_FIELDS : List Str := ["name".toList, idS, "cancellationType".toList]

/-- The `FORCE_EQUAL_FIELDS` from `src/filter.ts`. -/
def FORCE_EQUAL_FIELDS : List Str := [idS, underscoreIdS]

/-- The `SUPPORTED_OPERATORS` from `src/filter.ts`: the record maps an operator
name to the filter types it supports; a missing key yields `undefined`. -/
def SUPPORTED_OPERATORS (op : Str) : Option (List Str) :=
  if op = eqS then some [stringS, dateS, amountS, arrayS]
  else if op = neS then some [stringS, amountS, arrayS]
  else if op = hasS then some [stringS]
  else if op = nhS then some [stringS]
  else if op = anyS then some [stringS, arrayS]
  else if op = noneS then some [stringS, arrayS]
  else if op = rangeS then some [dateS, amountS]
  else if op = ltS then some [amountS]
  else if op = gtS then some [amountS]
  else if op = beforeS then some [dateS]
  else if op = afterS then some [dateS]
  else none

/-- The `SUPPORTED_OPERATORS[operator]?.includes(type)`. -/
def supportedPair (op ty : Str) : Bool :=
  match SUPPORTED_OPERATORS op with
  | some ts => decide (ty ∈ ts)
  | none => false

/-- A filter value: either a scalar string or the `{from, to}` object
produced by the `range` split (`BetweenOperatorValue` in `src/types.ts`). -/
inductive JsVal where
  | str (s : Str)
  | pair (fromS toS : Str)
deriving DecidableEq, Repr

/-- The `FilterValue` from `src/types.ts`: all of `type`, `operator`, `value`
and `percentOfResult` are optional.  `type` and `operator` are kept as raw
strings because the full wire form casts arbitrary tokens into them. -/
structure FilterValue where
  field : Str
  type : Option Str := none
  operator : Option Str := none
  value : Option JsVal := none
  percentOfResult : Option Str := none
deriving DecidableEq, Repr

/-- The regex `/^\d{4}-\d{2}-\d{2}$/`. -/
def isDateToken : Str → Bool
  | [a, b, c, d, '-', e, f, '-', g, h] =>
    a.isDigit && b.isDigit && c.isDigit && d.isDigit &&
    e.isDigit && f.isDigit && g.isDigit && h.isDigit
  | _ => false

/-- The regex `/^\d{4}-\d{2}-\d{2}(~\d{4}-\d{2}-\d{2})?$/`: a date token or
two date tokens joined by a single `~`. -/
def isDateShape (s : Str) : Bool :=
  match splitOn '~' s with
  | [a] => isDateToken a
  | [a, b] => isDateToken a && isDateToken b
  | _ => false

/-- The regex `/^[\d.]+$/`: a non-empty run of digits and dots. -/
def isAmountShape (s : Str) : Bool :=
  !s.isEmpty && s.all (fun c => c.isDigit || c = '.')

/-- Short-form type and operator inference (`parseFilter`, the
`field|value` branch of `src/filter.ts`): type from the value's shape, then
operator, with a comma forcing `array`/`any`. -/
def shortTypeOp (field value : Str) : Str × Str :=
  let ty :=
    if isDateShape value then dateS
    else if isAmountShape value ∧ field ∉ FORCE_STRING_FIELDS then amountS
    else stringS
  if ',' ∈ value then (arrayS, anyS)
  else if '~' ∈ value then (ty, rangeS)
  else if field ∈ FORCE_EQUAL_FIELDS then (ty, eqS)
  else (ty, hasS)

/-- The `range` value split: `value.split("~", 2)` destructured into
`{from, to}`.  JS `split` with limit 2 keeps only the first two
`~`-separated tokens. -/
def rangeSplitValue (v : Str) : JsVal :=
  let parts := jsSplitLimit '~' 2 v
  .pair ((parts.get? 0).getD []) ((parts.get? 1).getD [])

/-- The branch selection of `parseFilter`: the short form applies when the
4th token is absent but a 2nd or 3rd one is present (`p4 === undefined &&
(p3 !== undefined || p2 !== undefined)`), inferring type and operator from
the value `p3 || p2`; otherwise the tokens are read as
`type, operator, value` directly. -/
def parseFilterTov (field : Str) (p2 p3 p4 : Option Str) :
    Option Str × Option Str × Option Str :=
  if p4 = none ∧ (¬ p3 = none ∨ ¬ p2 = none) then
    let value := (jsOrStrOpt p3 p2).getD []
    let tyop := shortTypeOp field value
    (some tyop.1, some tyop.2, some value)
  else
    (p2, p3, p4)

/-- The final value step of `parseFilter`: a `range` operator with a `~`
in the (string) value splits it into `{from, to}`; everything else keeps
the raw string. -/
def parseFilterValue (op : Option Str) (rawValue : Option Str) : Option JsVal :=
  match rawValue with
  | none => none
  | some v =>
    if op = some rangeS ∧ '~' ∈ v then some (rangeSplitValue v) else some (.str v)

/-- The `parseFilter` from `src/filter.ts`: splits the raw parameter on `|`
(limit 5), takes the short branch when the 4th token is absent but a 2nd or
3rd one is present, otherwise reads `field|type|operator|value`, and
finally splits a `range` value on `~`.  The 5th token, when present, is
`percentOfResult`. -/
def parseFilter (param : Str) : FilterValue :=
  let parts := jsSplitLimit '|' 5 param
  let field := (parts.get? 0).getD []
  let tov := parseFilterTov field (parts.get? 1) (parts.get? 2) (parts.get? 3)
  { field := field, type := tov.1, operator := tov.2.1,
    value := parseFilterValue tov.2.1 tov.2.2,
    percentOfResult := parts.get? 4 }

/-- The `parseFilters` from `src/filter.ts`. -/
def parseFilters (params : List Str) : List FilterValue :=
  params.map parseFilter

/-- The external driver's `ObjectId.isValid` on its canonical string form:
a 24-hexadecimal-character string. -/
def is24Hex (s : Str) : Bool :=
  s.length = 24 && s.all (fun c => c.isDigit || ('a' ≤ c && c ≤ 'f') || ('A' ≤ c && c ≤ 'F'))

/-- A value appearing inside a compiled match stage. -/
inductive MVal where
  /-- A plain JS string. -/
  | str (s : Str)
  /-- A JS number; `none` encodes `NaN`. -/
  | num (q : Option ℚ)
  /-- The `new ObjectId(s)`. -/
  | oid (s : Str)
  /-- The `startOfDay` applied to the raw date string (symbolic); `none` marks
  a non-string operand, on which the JS code produces an invalid date. -/
  | dayStart (s : Option Str)
  /-- The `endOfDay` applied to the raw date string (symbolic). -/
  | dayEnd (s : Option Str)
  /-- A raw `{from, to}` object reaching a value position unchanged. -/
  | rawPair (fromS toS : Str)
  /-- A two-element JS array reaching a scalar value position. -/
  | arr2 (a b : MVal)
deriving DecidableEq, Repr

/-- A single field comparison inside a `$match`. -/
inductive Cond where
  /-- The `{ field: value }` — plain equality. -/
  | feq (field : Str) (v : MVal)
  /-- The `{ field: { $eq: v } }`. -/
  | eqOp (field : Str) (v : MVal)
  /-- The `{ field: { $ne: v } }`. -/
  | neOp (field : Str) (v : MVal)
  /-- The `{ field: { $regex: new RegExp(pat, "i") } }`. -/
  | regexOp (field : Str) (pat : Str)
  /-- The `{ field: { $not: new RegExp(pat, "i") } }`. -/
  | notRegexOp (field : Str) (pat : Str)
  /-- The `{ field: { $in: vs } }`. -/
  | inOp (field : Str) (vs : List MVal)
  /-- The `{ field: { $nin: vs } }`. -/
  | ninOp (field : Str) (vs : List MVal)
  /-- The `{ field: { $lt: v } }`. -/
  | ltOp (field : Str) (v : MVal)
  /-- The `{ field: { $gt: v } }`. -/
  | gtOp (field : Str) (v : MVal)
  /-- The `{ field: { $gte: v } }`. -/
  | gteOp (field : Str) (v : MVal)
  /-- The `{ field: { $lte: v } }`. -/
  | lteOp (field : Str) (v : MVal)
deriving DecidableEq, Repr

/-- The body of a `$match` stage.  The source only ever emits a single
comparison, a two-element `$and`, or a three-element `$or`. -/
inductive MatchCond where
  | single (c : Cond)
  | andPair (a b : Cond)
  | orTriple (a b c : Cond)
deriving DecidableEq, Repr

/-- An aggregation pipeline stage (`PipelineStage`). -/
inductive Stage where
  | matchS (c : MatchCond)
  | sortS (field : Str) (dir : ℤ)
  | skipS (n : Option ℚ)
  | limitS (n : Option ℚ)
  | countS (label : Str)
  /-- The `{ $addFields: { _sourceType: collName } }`. -/
  | addFieldsSource (collName : Str)
  /-- The `{ $unionWith: { coll, pipeline } }`. -/
  | unionWith (coll : Str) (sub : List Stage)

/-- The result of `prepareValue` in `src/filter.ts`. -/
inductive Prep where
  /-- A two-element array `[a, b]` (date bounds or parsed range bounds). -/
  | pairV (a b : MVal)
  /-- A scalar number (`parseFloat` of an amount). -/
  | oneV (m : MVal)
  /-- The value passed through unchanged (type neither date nor amount). -/
  | passthrough (v : JsVal)
deriving DecidableEq, Repr

/-- JS string coercion of a filter value (template literals, `String(v)`):
an object stringifies to `"[object Object]"`. -/
def jsStringOfVal : JsVal → Str
  | .str s => s
  | .pair _ _ => objectObjectS

/-- A filter value used directly as a match value. -/
def mvalOfJsVal : JsVal → MVal
  | .str s => .str s
  | .pair a b => .rawPair a b

/-- The `prepareValue` from `src/filter.ts`: dates become `[startOfDay x,
endOfDay y]`, amounts are `parseFloat`ed (pairwise for `range`), all other
types pass through.  A string reaching the `range` branch has `undefined`
`from`/`to` (marked `none`); an object reaching the scalar date/amount
branches yields an invalid date / `NaN` in JS. -/
def prepareValue (value : JsVal) (ty op : Str) : Prep :=
  if ty = dateS then
    if op = rangeS then
      match value with
      | .pair a b => .pairV (.dayStart (some a)) (.dayEnd (some b))
      | .str _ => .pairV (.dayStart none) (.dayEnd none)
    else
      match value with
      | .str s => .pairV (.dayStart (some s)) (.dayEnd (some s))
      | .pair _ _ => .pairV (.dayStart none) (.dayEnd none)
  else if ty = amountS then
    if op = rangeS then
      match value with
      | .pair a b => .pairV (.num (jsParseFloat a)) (.num (jsParseFloat b))
      | .str _ => .pairV (.num none) (.num none)
    else
      match value with
      | .str s => .oneV (.num (jsParseFloat s))
      | .pair _ _ => .oneV (.num none)
  else .passthrough value

/-- The prepared value in a scalar position. -/
def Prep.toMVal : Prep → MVal
  | .pairV a b => .arr2 a b
  | .oneV m => m
  | .passthrough v => mvalOfJsVal v

/-- The prepared value coerced to a string (`v as string`); only reached
when the filter type is `string`, so the value passed through. -/
def Prep.toStr : Prep → Str
  | .passthrough v => jsStringOfVal v
  | _ => []

/-- The `v[0]` of a prepared date pair. -/
def Prep.first : Prep → MVal
  | .pairV a _ => a
  | .oneV m => m
  | .passthrough v => mvalOfJsVal v

/-- The `v[1]` of a prepared date pair. -/
def Prep.second : Prep → MVal
  | .pairV _ b => b
  | .oneV m => m
  | .passthrough v => mvalOfJsVal v

/-- The regex source `` `^${v}$` ``. -/
def regexAnchorExact (s : Str) : Str := '^' :: s ++ ['$']

/-- The regex source `` `^(${v.split(",").join("|")})$` ``. -/
def regexAnyList (s : Str) : Str :=
  '^' :: '(' :: List.intercalate ['|'] (splitOn ',' s) ++ [')', '$']

/-- The comma-split membership list of an `any`/`none` array filter: each
element becomes an `ObjectId` when the driver accepts it as one, else
stays a string. -/
def promoteList (s : Str) : List MVal :=
  (splitOn ',' s).map (fun x => if is24Hex x then .oid x else .str x)

/-- The `buildMatch` from `src/filter.ts`: drops descriptors with a falsy
field/type/operator or an undefined value, drops `(type, operator)` pairs
outside `SUPPORTED_OPERATORS`, and otherwise emits one `$match` stage per
the operator's semantics. -/
def buildMatch (filter : FilterValue) : Option Stage :=
  match filter.type, filter.operator, filter.value with
  | some ty, some op, some value =>
    if filter.field = [] ∨ ty = [] ∨ op = [] then none
    else if ¬ supportedPair op ty then none
    else
      let f := filter.field
      let v := prepareValue value ty op
      if op = eqS then
        if ty = dateS then
          match v with
          | .pairV a b => some (.matchS (.andPair (.gteOp f a) (.lteOp f b)))
          | _ => none
        else if ty = stringS then
          if f ∈ [idS, underscoreIdS] then
            some (.matchS (.orTriple
              (.feq idS (v.toMVal))
              (.feq idS (.num (jsNumber v.toStr)))
              (.feq underscoreIdS (if is24Hex v.toStr then .oid v.toStr else v.toMVal))))
          else some (.matchS (.single (.regexOp f (regexAnchorExact v.toStr))))
        else some (.matchS (.single (.eqOp f v.toMVal)))
      else if op = neS then
        if ty = stringS then
          some (.matchS (.single (.notRegexOp f (regexAnchorExact v.toStr))))
        else some (.matchS (.single (.neOp f v.toMVal)))
      else if op = hasS then
        some (.matchS (.single (.regexOp f v.toStr)))
      else if op = nhS then
        some (.matchS (.single (.notRegexOp f v.toStr)))
      else if op = anyS then
        if ty = arrayS then
          match v with
          | .passthrough (.str s) => some (.matchS (.single (.inOp f (promoteList s))))
          | _ => some (.matchS (.single (.inOp f [v.toMVal])))
        else some (.matchS (.single (.regexOp f (regexAnyList v.toStr))))
      else if op = noneS then
        if ty = arrayS then
          match v with
          | .passthrough (.str s) => some (.matchS (.single (.ninOp f (promoteList s))))
          | _ => some (.matchS (.single (.ninOp f [v.toMVal])))
        else some (.matchS (.single (.notRegexOp f (regexAnyList v.toStr))))
      else if op = rangeS then
        match v with
        | .pairV a b => some (.matchS (.andPair (.gteOp f a) (.lteOp f b)))
        | _ => none
      else if op = ltS ∨ op = beforeS then
        some (.matchS (.single (.ltOp f (if ty = dateS then v.first else v.toMVal))))
      else if op = gtS ∨ op = afterS then
        some (.matchS (.single (.gtOp f (if ty = dateS then v.second else v.toMVal))))
      else none
  | _, _, _ => none

/-- The `buildPipeline` from `src/filter.ts`: one stage per descriptor that
`buildMatch` accepts, in order. -/
def buildPipeline : List FilterValue → List Stage
  | [] => []
  | f :: fs =>
    match buildMatch f with
    | some st => st :: buildPipeline fs
    | none => buildPipeline fs

/-- The `percentOfResult` handling of `buildPipelineWithPercent`
(`src/filter.ts`): after a filter's match stage is pushed, a truthy
`percentOfResult` triggers a count round-trip (`exec` is the engine
oracle, returning `?.[0]?.total || 0` for the pipeline plus a `$count`
stage); a zero count appends nothing, a nonnegative percentage appends a
`$limit` of `ceil((total / 100) * pct)`, a negative one appends a `$skip`
of `total - num` then a `$limit` of `num = floor((total / 100) * -pct)`.
JS number arithmetic is modelled exactly over `ℚ`; a `NaN` percentage
(`parseFloat` failure) appends a `$limit` of `NaN`. -/
def percentStep (exec : List Stage → ℕ) (acc : List Stage) (f : FilterValue) : List Stage :=
  if isTruthyStr f.percentOfResult then
    let pct := jsParseFloat (f.percentOfResult.getD [])
    let total := exec (acc ++ [Stage.countS totalS])
    if total = 0 then acc
    else
      match pct with
      | some p =>
        let num : ℤ := if 0 ≤ p then ⌈(total : ℚ) / 100 * p⌉ else ⌊(total : ℚ) / 100 * (-p)⌋
        if p < 0 then
          acc ++ [Stage.skipS (some ((total : ℚ) - (num : ℚ))), Stage.limitS (some (num : ℚ))]
        else acc ++ [Stage.limitS (some (num : ℚ))]
      | none => acc ++ [Stage.limitS none]
  else acc

/-- The loop of `buildPipelineWithPercent`, carrying the pipeline built so
far (the count round-trips see the cumulative pipeline). -/
def buildPipelineWithPercentGo (exec : List Stage → ℕ) : List Stage → List FilterValue → List Stage
  | acc, [] => acc
  | acc, f :: fs =>
    match buildMatch f with
    | none => buildPipelineWithPercentGo exec acc fs
    | some st => buildPipelineWithPercentGo exec (percentStep exec (acc ++ [st]) f) fs

/-- The `buildPipelineWithPercent` from `src/filter.ts`, with the engine's
running count modelled by the oracle `exec`. -/
def buildPipelineWithPercent (exec : List Stage → ℕ) (filters : List FilterValue) : List Stage :=
  buildPipelineWithPercentGo exec [] filters

/-- The URL `filter` parameters surviving the tenant screen
(`getFiltersFromUrl`, `src/filter.ts`): every raw string containing the
tenant field name as a substring is removed. -/
def tenantFilteredStrings (params : Params) (tenantField : Str) : List Str :=
  (getAllParams params filterKeyS).filter (fun f => !(isSubstr tenantField f))

/-- The tenant descriptor unshifted by `getFiltersFromUrl`. -/
def tenantFilter (tenantField tenantValue : Str) : FilterValue :=
  { field := tenantField, type := some stringS, operator := some eqS,
    value := some (.str tenantValue), percentOfResult := none }

/-- The `getFiltersFromUrl` from `src/filter.ts`: parse the surviving `filter`
parameters and, when a truthy tenant value is supplied, unshift the tenant
equality descriptor.  The TS signature defaults `tenantField` to
`"shopDomain"`; callers that rely on the default pass `shopDomainS`. -/
def getFiltersFromUrl (params : Params) (tenantValue : Option Str) (tenantField : Str) :
    List FilterValue :=
  let filters := parseFilters (tenantFilteredStrings params tenantField)
  if isTruthyStr tenantValue then
    tenantFilter tenantField (tenantValue.getD []) :: filters
  else filters

/-- The `FetchOptions` from `src/types.ts`. -/
structure FetchOptions where
  limit : Option ℚ := none
  sortField : Option Str := none
  sortDir : Option Str := none
  tenantField : Option Str := none
  tenantValue : Option Str := none

/-- The `Number(searchParams.get("page") || 1)` (`src/fetch.ts` line 59): a
missing or empty `page` parameter falls back to the number `1`, any other
string goes through `Number`. -/
def pageRaw (params : Params) : Option ℚ :=
  match getParam params pageKeyS with
  | some s => if s.isEmpty then some 1 else jsNumber s
  | none => some 1

/-- The effective page of `fetchList`: `Math.max(pageRaw, 1)`. -/
def fetchListPage (params : Params) : Option ℚ :=
  jsMax (pageRaw params) (some 1)

/-- The `Number(searchParams.get("limit") || maxLimit)` (`src/fetch.ts` line
56): a missing or empty `limit` parameter falls back to the configured
maximum. -/
def limitRaw (params : Params) (maxLimit : ℚ) : Option ℚ :=
  match getParam params limitKeyS with
  | some s => if s.isEmpty then some maxLimit else jsNumber s
  | none => some maxLimit

/-- The effective limit of `fetchList`: `Math.min(limitRaw, maxLimit)`. -/
def fetchListLimit (params : Params) (maxLimit : ℚ) : Option ℚ :=
  jsMin (limitRaw params maxLimit) (some maxLimit)

/-- The configured maximum of `fetchList`: `options.limit` with default
`250`. -/
def FetchOptions.maxLimit (o : FetchOptions) : ℚ := o.limit.getD 250

/-- Is the effective page a number that is at least one?  (`false` both
for a number below one and for `NaN`.) -/
def pageAtLeastOne : Option ℚ → Bool
  | some q => decide (1 ≤ q)
  | none => false

/-- The identifier resolution of `fetchItem` (`src/fetch.ts` lines
229-235): a falsy explicit argument falls back to the `id` query
parameter (`?? undefined` keeps an empty string, which the following
falsiness check then rejects). -/
def resolveId (params : Params) (idArg : Option Str) : Option Str :=
  match idArg with
  | some s => if s.isEmpty then getParam params idS else some s
  | none => getParam params idS

/-- The point-lookup pipeline of `fetchItem`: the three-representation
`$or` (string `id`, `Number`-coerced `id`, ObjectId-or-string `_id`)
followed by the caller's final stages and `$limit: 1`. -/
def fetchItemPipeline (initial finalP : List Stage) (idStr : Str) : List Stage :=
  initial ++
  [Stage.matchS (.orTriple
    (.feq idS (.str idStr))
    (.feq idS (.num (jsNumber idStr)))
    (.feq underscoreIdS (if is24Hex idStr then .oid idStr else .str idStr)))] ++
  finalP ++ [Stage.limitS (some 1)]

/-- The `fetchItem` from `src/fetch.ts`, with the engine as the oracle `exec`.
The second component counts engine round-trips: a missing identifier
returns `null` before any engine contact; otherwise the first aggregation
result (or `null` when there is none) is returned after one call. -/
def fetchItem {α : Type} (params : Params) (initial finalP : List Stage)
    (idArg : Option Str) (exec : List Stage → List α) : Option α × ℕ :=
  match resolveId params idArg with
  | none => (none, 0)
  | some s =>
    if s.isEmpty then (none, 0)
    else ((exec (fetchItemPipeline initial finalP s)).head?, 1)

/-- One source of `fetchUnifiedList` (`MultiModelConfig` from
`src/types.ts`): the collection name plus optional pre/post stages. -/
structure ModelConfig where
  name : Str
  initialPipeline : List Stage := []
  finalPipeline : List Stage := []

/-- The tenant field `fetchUnifiedList` passes to `getFiltersFromUrl`:
`tenantField ?? ""` (`src/fetch.ts` line 151). -/
def fetchUnifiedTenantField (o : FetchOptions) : Str :=
  o.tenantField.getD []

/-- The filter pipeline of `fetchUnifiedList`:
`buildPipeline(getFiltersFromUrl(url, tenantValue, tenantField ?? ""))`. -/
def fetchUnifiedFilterPipeline (params : Params) (o : FetchOptions) : List Stage :=
  buildPipeline (getFiltersFromUrl params o.tenantValue (fetchUnifiedTenantField o))

/-- The combined pipeline `fetchUnifiedList` builds before the count
round-trip (`src/fetch.ts` lines 155-176): base prefix, filter stages,
source tag, one `$unionWith` per further source carrying the same filter
stages, then the base suffix. -/
def unifiedPipeline (base : ModelConfig) (others : List ModelConfig) (fp : List Stage) :
    List Stage :=
  (base.initialPipeline ++ fp ++ [Stage.addFieldsSource base.name]) ++
  others.map (fun c =>
    Stage.unionWith c.name
      (c.initialPipeline ++ fp ++ [Stage.addFieldsSource c.name] ++ c.finalPipeline)) ++
  base.finalPipeline

/-- The maximal `c`-free front segment of a string. -/
def upTo (c : Char) (s : Str) : Str :=
  s.takeWhile (fun x => decide (x ≠ c))

/-- Everything after the first occurrence of `c` in a string. -/
def afterFirst (c : Char) (s : Str) : Str :=
  (s.dropWhile (fun x => decide (x ≠ c))).drop 1

-- Basic lemmas about the string and pipeline helpers.

lemma splitOn_append (c : Char) (f r : Str) (h : c ∉ f) :
    splitOn c (f ++ c :: r) = f :: splitOn c r := by
  induction f with
  | nil => simp [splitOn]
  | cons x xs ih =>
    have hx : ¬ x = c := by intro hh; exact h (by simp [hh])
    have hxs : c ∉ xs := fun hm => h (List.mem_cons_of_mem _ hm)
    simp [splitOn, hx, ih hxs]

lemma splitOn_eq_single (c : Char) (v : Str) (h : c ∉ v) :
    splitOn c v = [v] := by
  induction v with
  | nil => simp [splitOn]
  | cons x xs ih =>
    have hx : ¬ x = c := by intro hh; exact h (by simp [hh])
    have hxs : c ∉ xs := fun hm => h (List.mem_cons_of_mem _ hm)
    simp [splitOn, hx, ih hxs]

lemma splitOn_head (c : Char) (s : Str) :
    ∃ t, splitOn c s = upTo c s :: t := by
  induction s with
  | nil => exact ⟨[], rfl⟩
  | cons x xs ih =>
    by_cases hx : x = c
    · subst hx
      exact ⟨splitOn x xs, by simp [splitOn, upTo]⟩
    · obtain ⟨t, ht⟩ := ih
      exact ⟨t, by simp [splitOn, hx, ht, upTo]⟩

lemma splitOn_of_mem (c : Char) (s : Str) (h : c ∈ s) :
    splitOn c s = upTo c s :: splitOn c (afterFirst c s) := by
  induction s with
  | nil => cases h
  | cons x xs ih =>
    by_cases hx : x = c
    · subst hx
      simp [splitOn, upTo, afterFirst]
    · have hxs : c ∈ xs := by
        rcases List.mem_cons.mp h with h1 | h1
        · exact absurd h1.symm hx
        · exact h1
      simp [splitOn, hx, ih hxs, upTo, afterFirst]

lemma buildPipeline_append (l₁ l₂ : List FilterValue) :
    buildPipeline (l₁ ++ l₂) = buildPipeline l₁ ++ buildPipeline l₂ := by
  induction l₁ with
  | nil => simp [buildPipeline]
  | cons f fs ih =>
    simp only [List.cons_append, buildPipeline]
    cases buildMatch f <;> simp [ih]

lemma isSubstr_nil (s : Str) : isSubstr [] s = true := by
  cases s <;> simp [isSubstr, strStarts]

lemma rangeSplitValue_of_mem (v : Str) (h : '~' ∈ v) :
    rangeSplitValue v = .pair (upTo '~' v) (upTo '~' (afterFirst '~' v)) := by
  obtain ⟨t, ht⟩ := splitOn_head '~' (afterFirst '~' v)
  simp [rangeSplitValue, jsSplitLimit, splitOn_of_mem '~' v h, ht]

lemma parseFilterValue_pair (op : Option Str) (raw : Option Str) (a b : Str)
    (h : parseFilterValue op raw = some (.pair a b)) : op = some rangeS := by
  cases raw with
  | none => simp [parseFilterValue] at h
  | some v =>
    by_cases hc : op = some rangeS ∧ '~' ∈ v
    · exact hc.1
    · simp [parseFilterValue, hc] at h

/-- C2: a descriptor whose `(type, operator)` pair is outside
`SUPPORTED_OPERATORS` produces no stage (`buildMatch` returns `null`,
raising nothing), and removing it from a descriptor list leaves the
pipeline compiled from the remaining descriptors unchanged. -/
theorem claim_C2 (f : FilterValue) (ty op : Str) (l₁ l₂ : List FilterValue)
    (hty : f.type = some ty) (hop : f.operator = some op)
    (h : supportedPair op ty = false) :
    buildMatch f = none ∧
    buildPipeline (l₁ ++ f :: l₂) = buildPipeline (l₁ ++ l₂) := by
  obtain ⟨fld, ty0, op0, val, pct⟩ := f
  simp only at hty hop
  subst hty hop
  have hb : buildMatch ⟨fld, some ty, some op, val, pct⟩ = none := by
    cases val with
    | none => rfl
    | some v =>
      by_cases hfe : fld = [] ∨ ty = [] ∨ op = []
      · simp [buildMatch, hfe]
      · simp [buildMatch, hfe, h]
  refine ⟨hb, ?_⟩
  rw [buildPipeline_append, buildPipeline_append]
  simp [buildPipeline, hb]

/-- Witness for C2 at the concrete incompatible pair
`type = string, operator = range`. -/
theorem claim_C2_witness :
    buildMatch ⟨"status".toList, some stringS, some rangeS,
      some (.str ("x".toList)), none⟩ = none ∧
    buildPipeline ([] ++ [(⟨"status".toList, some stringS, some rangeS,
      some (.str ("x".toList)), none⟩ : FilterValue)]) = buildPipeline ([] ++ []) :=
  claim_C2 _ stringS rangeS [] [] rfl rfl (by decide)

/-- C4: a short-form filter string whose value contains a comma parses to
type `array`, operator `any`, with the raw comma-joined value kept as a
string — the comma test runs before any amount/date consideration can
matter. -/
theorem claim_C4 (f v : Str) (hf : '|' ∉ f) (hv : '|' ∉ v) (hc : ',' ∈ v) :
    parseFilter (f ++ '|' :: v) =
      { field := f, type := some arrayS, operator := some anyS,
        value := some (.str v), percentOfResult := none } := by
  have hsplit : splitOn '|' (f ++ '|' :: v) = [f, v] := by
    rw [splitOn_append '|' f v hf, splitOn_eq_single '|' v hv]
  have hops : shortTypeOp f v = (arrayS, anyS) := by
    simp [shortTypeOp, hc]
  have hne : ¬ (some anyS = some rangeS) := by decide
  simp [parseFilter, parseFilterTov, parseFilterValue, jsSplitLimit, hsplit, jsOrStrOpt, hops, hne]

/-- Witness for C4 at `parseFilter("tags|a,b,c")`. -/
theorem claim_C4_witness :
    parseFilter ("tags".toList ++ '|' :: "a,b,c".toList) =
      { field := "tags".toList, type := some arrayS, operator := some anyS,
        value := some (.str ("a,b,c".toList)), percentOfResult := none } :=
  claim_C4 _ _ (by decide) (by decide) (by decide)

/-- C8: an `any` (resp. `none`) filter of type `array` with a string value
compiles to `$in` (resp. `$nin`) over the comma-split list, each element
promoted to an ObjectId exactly when it is a 24-hex-character string. -/
theorem claim_C8 (fld s : Str) (pr : Option Str) (hf : fld ≠ []) :
    buildMatch { field := fld, type := some arrayS, operator := some anyS,
                 value := some (.str s), percentOfResult := pr } =
      some (.matchS (.single (.inOp fld ((splitOn ',' s).map
        (fun x => if is24Hex x then MVal.oid x else MVal.str x))))) ∧
    buildMatch { field := fld, type := some arrayS, operator := some noneS,
                 value := some (.str s), percentOfResult := pr } =
      some (.matchS (.single (.ninOp fld ((splitOn ',' s).map
        (fun x => if is24Hex x then MVal.oid x else MVal.str x))))) := by
  constructor <;>
    simp [buildMatch, hf, prepareValue, promoteList, supportedPair,
      SUPPORTED_OPERATORS, anyS, noneS, arrayS, eqS, neS, hasS, nhS,
      rangeS, ltS, gtS, beforeS, afterS, dateS, amountS, stringS]

/-- Witness for C8: `tags` any/none over `"a,0123456789abcdef01234567"` —
the second element has the ObjectId shape, the first stays a string. -/
theorem claim_C8_witness :
    buildMatch { field := "tags".toList, type := some arrayS,
                 operator := some anyS,
                 value := some (.str ("a,0123456789abcdef01234567".toList)),
                 percentOfResult := none } =
      some (.matchS (.single (.inOp ("tags".toList)
        ((splitOn ',' ("a,0123456789abcdef01234567".toList)).map
          (fun x => if is24Hex x then MVal.oid x else MVal.str x))))) ∧
    buildMatch { field := "tags".toList, type := some arrayS,
                 operator := some noneS,
                 value := some (.str ("a,0123456789abcdef01234567".toList)),
                 percentOfResult := none } =
      some (.matchS (.single (.ninOp ("tags".toList)
        ((splitOn ',' ("a,0123456789abcdef01234567".toList)).map
          (fun x => if is24Hex x then MVal.oid x else MVal.str x))))) :=
  claim_C8 _ _ none (by decide)

lemma shortTypeOp_no_pipe (f v : Str) :
    '|' ∉ (shortTypeOp f v).1 ∧ '|' ∉ (shortTypeOp f v).2 := by
  simp only [shortTypeOp]
  split_ifs <;> constructor <;> decide

/-- Parsing a short-form string gives exactly the descriptor obtained from
the full-form string spelled with the inferred type and operator. -/
lemma parse_short_eq_full (f v : Str) (hf : '|' ∉ f) (hv : '|' ∉ v) :
    parseFilter (f ++ '|' :: v) =
      parseFilter (f ++ '|' :: ((shortTypeOp f v).1 ++ '|' :: ((shortTypeOp f v).2 ++ '|' :: v))) := by
  obtain ⟨hty, hop⟩ := shortTypeOp_no_pipe f v
  have hshort : splitOn '|' (f ++ '|' :: v) = [f, v] := by
    rw [splitOn_append '|' f v hf, splitOn_eq_single '|' v hv]
  have hfull : splitOn '|' (f ++ '|' :: ((shortTypeOp f v).1 ++ '|' :: ((shortTypeOp f v).2 ++ '|' :: v))) =
      [f, (shortTypeOp f v).1, (shortTypeOp f v).2, v] := by
    rw [splitOn_append '|' f _ hf, splitOn_append '|' _ _ hty,
      splitOn_append '|' _ _ hop, splitOn_eq_single '|' v hv]
  simp [parseFilter, parseFilterTov, parseFilterValue, jsSplitLimit, hshort, hfull, jsOrStrOpt]

/-- C1: compiling the parse of any short-form `field|value` string yields
exactly the stage list of the explicit full-form string built from the
inferred type and operator; in particular `"price|100"` compiles like
`"price|amount|has|100"` (both to zero stages, since `has` supports only
`string`), and unlike `"price|amount|eq|100"`. -/
theorem claim_C1 :
    (∀ f v : Str, '|' ∉ f → '|' ∉ v →
      buildPipeline [parseFilter (f ++ '|' :: v)] =
        buildPipeline [parseFilter
          (f ++ '|' :: ((shortTypeOp f v).1 ++ '|' :: ((shortTypeOp f v).2 ++ '|' :: v)))]) ∧
    buildPipeline [parseFilter ("price|100".toList)] =
      buildPipeline [parseFilter ("price|amount|has|100".toList)] ∧
    buildPipeline [parseFilter ("price|100".toList)] ≠
      buildPipeline [parseFilter ("price|amount|eq|100".toList)] := by
  refine ⟨fun f v hf hv => by rw [parse_short_eq_full f v hf hv], rfl, ?_⟩
  have e1 : buildPipeline [parseFilter ("price|100".toList)] = [] := rfl
  have e2 : buildPipeline [parseFilter ("price|amount|eq|100".toList)] =
      [Stage.matchS (.single (.eqOp ("price".toList)
        (.num (jsParseFloat ("100".toList)))))] := rfl
  rw [e1, e2]
  simp

/-- Witness for C1's quantified part, at `field = price`, `value = 100`. -/
theorem claim_C1_witness :
    buildPipeline [parseFilter ("price".toList ++ '|' :: "100".toList)] =
      buildPipeline [parseFilter ("price".toList ++ '|' ::
        ((shortTypeOp ("price".toList) ("100".toList)).1 ++ '|' ::
          ((shortTypeOp ("price".toList) ("100".toList)).2 ++ '|' :: "100".toList)))] :=
  claim_C1.1 _ _ (by decide) (by decide)

/-- C5 counterexample: the claim says the `to` component is the entire
substring after the first `~`, but `value.split("~", 2)` discards
everything from the second `~` on: `"f|amount|range|1~2~3"` parses with
`to = "2"`, not `"2~3"`. -/
theorem claim_C5_counterexample :
    (parseFilter ("f|amount|range|1~2~3".toList)).operator = some rangeS ∧
    (parseFilter ("f|amount|range|1~2~3".toList)).value =
      some (.pair ("1".toList) ("2".toList)) ∧
    (parseFilter ("f|amount|range|1~2~3".toList)).value ≠
      some (.pair ("1".toList) ("2~3".toList)) := by decide

/-- C5 amended: a `range` value containing `~` is split into `{from, to}`
where `from` is the segment before the first `~` and `to` is the segment
between the first `~` and the next `~` (the entire remainder when there is
no second `~`); and `range` is the only operator for which `parseFilter`
produces a structured value. -/
theorem claim_C5 :
    (∀ v : Str, '~' ∈ v →
      rangeSplitValue v = .pair (upTo '~' v) (upTo '~' (afterFirst '~' v))) ∧
    (∀ fld ty v : Str, '|' ∉ fld → '|' ∉ ty → '|' ∉ v → '~' ∈ v →
      parseFilter (fld ++ '|' :: (ty ++ '|' :: (rangeS ++ '|' :: v))) =
        { field := fld, type := some ty, operator := some rangeS,
          value := some (.pair (upTo '~' v) (upTo '~' (afterFirst '~' v))),
          percentOfResult := none }) ∧
    (∀ param a b, (parseFilter param).value = some (.pair a b) →
      (parseFilter param).operator = some rangeS) := by
  refine ⟨rangeSplitValue_of_mem, ?_, ?_⟩
  · intro fld ty v hfld hty hv hm
    have hsplit : splitOn '|' (fld ++ '|' :: (ty ++ '|' :: (rangeS ++ '|' :: v))) =
        [fld, ty, rangeS, v] := by
      rw [splitOn_append '|' fld _ hfld, splitOn_append '|' ty _ hty,
        splitOn_append '|' rangeS _ (by decide), splitOn_eq_single '|' v hv]
    simp [parseFilter, parseFilterTov, parseFilterValue, jsSplitLimit, hsplit, hm, rangeSplitValue_of_mem v hm]
  · intro param a b h
    simp only [parseFilter] at h ⊢
    exact parseFilterValue_pair _ _ a b h

/-- Witness for C5 at `"created|date|range|2024-01-01~2024-12-31"`. -/
theorem claim_C5_witness :
    parseFilter ("created".toList ++ '|' :: ("date".toList ++ '|' ::
        (rangeS ++ '|' :: "2024-01-01~2024-12-31".toList))) =
      { field := "created".toList, type := some ("date".toList),
        operator := some rangeS,
        value := some (.pair (upTo '~' ("2024-01-01~2024-12-31".toList))
          (upTo '~' (afterFirst '~' ("2024-01-01~2024-12-31".toList)))),
        percentOfResult := none } :=
  claim_C5.2.1 _ _ _ (by decide) (by decide) (by decide) (by decide)

/-- C9: when the caller of `fetchUnifiedList` does not set `tenantField`,
the code passes `tenantField ?? ""` — the empty string — to
`getFiltersFromUrl`; every filter string contains the empty string as a
substring, so every URL-supplied `filter` parameter is screened out, and a
tenant descriptor with an empty field name is dropped by `buildMatch`, so
the unified pipeline carries no URL-derived or tenant-derived match stage
for any URL. -/
theorem claim_C9 (o : FetchOptions) (params : Params) (base : ModelConfig)
    (others : List ModelConfig) (h : o.tenantField = none) :
    fetchUnifiedTenantField o = [] ∧
    fetchUnifiedFilterPipeline params o = [] ∧
    unifiedPipeline base others (fetchUnifiedFilterPipeline params o) =
      unifiedPipeline base others [] := by
  have htf : fetchUnifiedTenantField o = [] := by
    simp [fetchUnifiedTenantField, h]
  have hstr : tenantFilteredStrings params [] = [] := by
    simp [tenantFilteredStrings, isSubstr_nil]
  have hfp : fetchUnifiedFilterPipeline params o = [] := by
    rw [fetchUnifiedFilterPipeline, htf]
    cases htv : o.tenantValue with
    | none => simp [getFiltersFromUrl, isTruthyStr, htv, hstr, parseFilters, buildPipeline]
    | some tv =>
      by_cases he : tv.isEmpty
      · simp [getFiltersFromUrl, isTruthyStr, htv, he, hstr, parseFilters, buildPipeline]
      · have hbm : buildMatch (tenantFilter [] tv) = none := by
          simp [buildMatch, tenantFilter]
        simp [getFiltersFromUrl, isTruthyStr, htv, he, hstr, parseFilters,
          buildPipeline, hbm]
  exact ⟨htf, hfp, by rw [hfp]⟩

/-- Witness for C9: no tenant field configured, one URL filter and a
tenant value present, two sources. -/
theorem claim_C9_witness :
    fetchUnifiedTenantField { tenantValue := some ("shop1".toList) } = [] ∧
    fetchUnifiedFilterPipeline [(filterKeyS, "status|active".toList)]
      { tenantValue := some ("shop1".toList) } = [] ∧
    unifiedPipeline ⟨"orders".toList, [], []⟩ [⟨"drafts".toList, [], []⟩]
      (fetchUnifiedFilterPipeline [(filterKeyS, "status|active".toList)]
        { tenantValue := some ("shop1".toList) }) =
    unifiedPipeline ⟨"orders".toList, [], []⟩ [⟨"drafts".toList, [], []⟩] [] :=
  claim_C9 _ _ _ _ rfl

/-- C10: `getFiltersFromUrl` keeps only `filter` parameters whose raw
string does not contain the tenant field name, and with a non-empty tenant
value the returned list starts with the tenant equality descriptor — a
client cannot override or duplicate the tenant constraint. -/
theorem claim_C10 (params : Params) (tv tf : Str) :
    (∀ s ∈ tenantFilteredStrings params tf, isSubstr tf s = false) ∧
    (tv ≠ [] → getFiltersFromUrl params (some tv) tf =
      tenantFilter tf tv :: parseFilters (tenantFilteredStrings params tf)) := by
  constructor
  · intro s hs
    have := (List.mem_filter.mp hs).2
    simpa using this
  · intro htv
    have he : tv.isEmpty = false := by
      cases tv with
      | nil => exact absurd rfl htv
      | cons x xs => rfl
    simp [getFiltersFromUrl, isTruthyStr, he]

/-- Witness for C10: one matching and one tenant-mentioning filter
parameter, tenant value `shop1`, tenant field `shopDomain`. -/
theorem claim_C10_witness :
    isSubstr shopDomainS ("status|active".toList) = false ∧
    getFiltersFromUrl
      [(filterKeyS, "status|active".toList),
       (filterKeyS, "shopDomain|string|eq|evil".toList)]
      (some ("shop1".toList)) shopDomainS =
      tenantFilter shopDomainS ("shop1".toList) ::
        parseFilters (tenantFilteredStrings
          [(filterKeyS, "status|active".toList),
           (filterKeyS, "shopDomain|string|eq|evil".toList)] shopDomainS) :=
  ⟨(claim_C10 [(filterKeyS, "status|active".toList),
      (filterKeyS, "shopDomain|string|eq|evil".toList)] ("shop1".toList)
      shopDomainS).1 _ (by decide),
   (claim_C10 _ ("shop1".toList) shopDomainS).2 (by decide)⟩

/-- C3: when a filter's match stage is emitted and its `percentOfResult`
parses to the number `p`, `buildPipelineWithPercent` queries the running
count `total`; a zero count appends nothing, `total > 0` with `p ≥ 0`
appends only a `$limit` of `ceil(total * p / 100)`, and `total > 0` with
`p < 0` appends a `$skip` of `total - floor(total * |p| / 100)`
immediately followed by a `$limit` of `floor(total * |p| / 100)`. -/
theorem claim_C3 (exec : List Stage → ℕ) (acc : List Stage) (f : FilterValue)
    (fs : List FilterValue) (st : Stage) (s : Str) (p : ℚ)
    (hst : buildMatch f = some st) (hpr : f.percentOfResult = some s)
    (hs : s ≠ []) (hp : jsParseFloat s = some p) :
    (exec ((acc ++ [st]) ++ [Stage.countS totalS]) = 0 →
      buildPipelineWithPercentGo exec acc (f :: fs) =
        buildPipelineWithPercentGo exec (acc ++ [st]) fs) ∧
    (0 < exec ((acc ++ [st]) ++ [Stage.countS totalS]) → 0 ≤ p →
      buildPipelineWithPercentGo exec acc (f :: fs) =
        buildPipelineWithPercentGo exec ((acc ++ [st]) ++
          [Stage.limitS (some ((⌈(exec ((acc ++ [st]) ++ [Stage.countS totalS]) : ℚ) * p / 100⌉ : ℤ) : ℚ))]) fs) ∧
    (0 < exec ((acc ++ [st]) ++ [Stage.countS totalS]) → p < 0 →
      buildPipelineWithPercentGo exec acc (f :: fs) =
        buildPipelineWithPercentGo exec ((acc ++ [st]) ++
          [Stage.skipS (some ((exec ((acc ++ [st]) ++ [Stage.countS totalS]) : ℚ) -
            ((⌊(exec ((acc ++ [st]) ++ [Stage.countS totalS]) : ℚ) * (-p) / 100⌋ : ℤ) : ℚ))),
           Stage.limitS (some ((⌊(exec ((acc ++ [st]) ++ [Stage.countS totalS]) : ℚ) * (-p) / 100⌋ : ℤ) : ℚ))]) fs) := by
  have hgo : buildPipelineWithPercentGo exec acc (f :: fs) =
      buildPipelineWithPercentGo exec (percentStep exec (acc ++ [st]) f) fs := by
    simp [buildPipelineWithPercentGo, hst]
  have htruthy : isTruthyStr f.percentOfResult = true := by
    rw [hpr]
    cases s with
    | nil => exact absurd rfl hs
    | cons x xs => rfl
  have hgetd : f.percentOfResult.getD [] = s := by rw [hpr]; rfl
  simp only [List.append_assoc, List.singleton_append]
  refine ⟨fun h0 => ?_, fun hpos hnn => ?_, fun hpos hneg => ?_⟩
  · rw [hgo]
    congr 1
    simp [percentStep, htruthy, hgetd, h0]
  · rw [hgo]
    congr 1
    have hne : ¬ exec (acc ++ [st, Stage.countS totalS]) = 0 :=
      Nat.pos_iff_ne_zero.mp hpos
    have hdiv : (exec (acc ++ [st, Stage.countS totalS]) : ℚ) / 100 * p =
        (exec (acc ++ [st, Stage.countS totalS]) : ℚ) * p / 100 := by ring
    simp [percentStep, htruthy, hgetd, hp, hne, hnn, not_lt.mpr hnn, hdiv]
  · rw [hgo]
    congr 1
    have hne : ¬ exec (acc ++ [st, Stage.countS totalS]) = 0 :=
      Nat.pos_iff_ne_zero.mp hpos
    simp [percentStep, htruthy, hgetd, hp, hne, hneg, not_le.mpr hneg]
    ring_nf

/-- Witness for C3: a `has`-string filter with `percentOfResult = "10"`
against an engine counting 100 matches appends a limit of 10 and no
skip. -/
theorem claim_C3_witness :
    buildPipelineWithPercentGo (fun _ => 100) []
      [⟨"a".toList, some stringS, some hasS, some (.str ("x".toList)), some ("10".toList)⟩] =
      [Stage.matchS (.single (.regexOp ("a".toList) ("x".toList))),
       Stage.limitS (some 10)] := by
  have h := (claim_C3 (fun _ => 100) []
    ⟨"a".toList, some stringS, some hasS, some (.str ("x".toList)), some ("10".toList)⟩ []
    (Stage.matchS (.single (.regexOp ("a".toList) ("x".toList))))
    ("10".toList) 10 rfl rfl (by decide) (by decide)).2.1 (by decide) (by norm_num)
  rw [h]
  norm_num [buildPipelineWithPercentGo]

/-- C6 counterexample: the claim quantifies over any string value of the
`page` parameter, but a non-numeric `page` (here `"abc"`) makes
`Number(...)` return `NaN`, which `Math.max(·, 1)` propagates — the
effective page is `NaN`, not a number at least 1. -/
theorem claim_C6_counterexample :
    fetchListPage [(pageKeyS, "abc".toList)] = none ∧
    pageAtLeastOne (fetchListPage [(pageKeyS, "abc".toList)]) = false := by
  decide

/-- C6 amended: for any `page` value whose `Number` conversion succeeds
(including the absent/empty default of 1), the effective page is clamped
to at least 1; for any `limit` value whose conversion succeeds (including
the absent/empty default), the effective limit is silently capped at the
configured maximum.  A non-numeric `page` or `limit` propagates `NaN`
instead. -/
theorem claim_C6 (params : Params) (maxLimit : ℚ) :
    (∀ q, pageRaw params = some q → pageAtLeastOne (fetchListPage params) = true) ∧
    (∀ q, limitRaw params maxLimit = some q →
      ∃ l, fetchListLimit params maxLimit = some l ∧ l ≤ maxLimit) := by
  constructor
  · intro q hq
    simp [fetchListPage, hq, jsMax, pageAtLeastOne, le_max_right]
  · intro q hq
    exact ⟨min q maxLimit, by simp [fetchListLimit, hq, jsMin], min_le_right _ _⟩

/-- Witness for C6 at `page=0`, `limit=999`, maximum 250: the page is
clamped up to 1 and the limit capped at 250. -/
theorem claim_C6_witness :
    pageAtLeastOne (fetchListPage [(pageKeyS, "0".toList), (limitKeyS, "999".toList)]) = true ∧
    ∃ l, fetchListLimit [(pageKeyS, "0".toList), (limitKeyS, "999".toList)] 250 = some l ∧
      l ≤ 250 :=
  ⟨(claim_C6 [(pageKeyS, "0".toList), (limitKeyS, "999".toList)] 250).1 0 (by decide),
   (claim_C6 [(pageKeyS, "0".toList), (limitKeyS, "999".toList)] 250).2 999 (by decide)⟩

/-- C7: `fetchItem` returns `null` (never an error) on not-found
conditions: with no identifier available it returns `null` with zero
engine round-trips, and with an identifier whose three-representation
`$or` lookup matches nothing it returns `null` after the single lookup
call. -/
theorem claim_C7 (α : Type) (params : Params) (initial finalP : List Stage)
    (idArg : Option Str) (exec : List Stage → List α) :
    ((resolveId params idArg = none ∨ resolveId params idArg = some []) →
      fetchItem params initial finalP idArg exec = (none, 0)) ∧
    (∀ s, resolveId params idArg = some s → s ≠ [] →
      exec (fetchItemPipeline initial finalP s) = [] →
      fetchItem params initial finalP idArg exec = (none, 1)) := by
  constructor
  · rintro (h | h) <;> simp [fetchItem, h]
  · intro s hs hne hex
    cases s with
    | nil => exact absurd rfl hne
    | cons x xs => simp [fetchItem, hs, hex]

/-- Witness for C7: an explicit identifier `zz` against an engine
returning no documents yields `null` after one round-trip. -/
theorem claim_C7_witness :
    fetchItem [] [] [] (some ("zz".toList)) (fun _ => ([] : List ℕ)) =
      ((none : Option ℕ), 1) :=
  (claim_C7 ℕ [] [] [] (some ("zz".toList)) (fun _ => [])).2
    ("zz".toList) rfl (by decide) rfl

end MongooseUrlQuery
